import Mathlib

/-!
Verification of the Answer Verification Engine of the italian-learning-companion
repository (`app.py`).  Strings are modelled as `List Char`; every Python helper
used by `check_answer` is translated into an executable Lean function:

* `remove_accents`            → `removeAccentsL`
* `_norm`                     → `pyNorm`
* `normalize_numbers`         → `normalizeNumbers`
* `denormalize_numbers`       → `denormalizeNumbers`
* sentence-translation branch → `stAccept`
* negation branch and the standard path → `checkAnswer` / `stdCorrect`

Python's `str.lower` is modelled on the alphabet the engine works with
(ASCII letters plus the ten accented Italian vowels in both cases); on every
character outside that table it is the identity, matching CPython on the
repository's data.
-/

/-- The apostrophe character, built from its code point. -/
def apos : Char := Char.ofNat 39

/-- Characters treated as whitespace by `str.strip` and by the regex class
used in `_norm` (space, tab, newline, carriage return, vertical tab, form feed). -/
def isPySpace (c : Char) : Bool :=
  c = ' ' || c = '\t' || c = '\n' || c = '\r' || c = Char.ofNat 11 || c = Char.ofNat 12

/-- Word characters for the regex word-boundary anchors used by
`normalize_numbers` and `denormalize_numbers` (ASCII letters, digits, underscore). -/
def isWordChar (c : Char) : Bool :=
  (('a' ≤ c && c ≤ 'z') || ('A' ≤ c && c ≤ 'Z') || ('0' ≤ c && c ≤ '9') || c = '_')

/-- First-match association-list lookup (the semantics of a Python dict with
distinct keys). -/
def clookup (c : Char) : List (Char × Char) → Option Char
  | [] => none
  | (k, v) :: rest => if c = k then some v else clookup c rest

/-- Case-lowering table: ASCII uppercase plus the accented Italian vowels
that `str.lower` maps for the engine's data. -/
def lowPairs : List (Char × Char) :=
  [('A', 'a'), ('B', 'b'), ('C', 'c'), ('D', 'd'), ('E', 'e'), ('F', 'f'),
   ('G', 'g'), ('H', 'h'), ('I', 'i'), ('J', 'j'), ('K', 'k'), ('L', 'l'),
   ('M', 'm'), ('N', 'n'), ('O', 'o'), ('P', 'p'), ('Q', 'q'), ('R', 'r'),
   ('S', 's'), ('T', 't'), ('U', 'u'), ('V', 'v'), ('W', 'w'), ('X', 'x'),
   ('Y', 'y'), ('Z', 'z'),
   ('À', 'à'), ('Á', 'á'), ('È', 'è'), ('É', 'é'), ('Ì', 'ì'), ('Í', 'í'),
   ('Ò', 'ò'), ('Ó', 'ó'), ('Ù', 'ù'), ('Ú', 'ú')]

/-- The `accent_map` of `remove_accents` in `app.py`. -/
def accPairs : List (Char × Char) :=
  [('à', 'a'), ('á', 'a'), ('è', 'e'), ('é', 'e'), ('ì', 'i'), ('í', 'i'),
   ('ò', 'o'), ('ó', 'o'), ('ù', 'u'), ('ú', 'u')]

/-- Python `str.lower` restricted to the engine's alphabet. -/
def pyLower (c : Char) : Char :=
  match clookup c lowPairs with
  | some v => v
  | none => c

/-- One accented vowel folded to its plain form (the per-character effect of the
`replace` loop in `remove_accents`; domains and ranges of the table are disjoint,
so the sequential replaces act pointwise). -/
def accFold (c : Char) : Char :=
  match clookup c accPairs with
  | some v => v
  | none => c

/-- `remove_accents(text)` from `app.py`: lower-case, then fold accents. -/
def removeAccentsL (l : List Char) : List Char :=
  (l.map pyLower).map accFold

/-- Python `str.strip()`: drop leading and trailing whitespace. -/
def pyStrip (l : List Char) : List Char :=
  (((l.dropWhile isPySpace).reverse).dropWhile isPySpace).reverse

/-- Scanner for the substitution of the regex (apostrophe followed by one or
more whitespace characters) by a bare apostrophe in `_norm`.  The flag records
that the characters being read sit directly after an emitted apostrophe, in
which case whitespace is skipped. -/
def collapseAposAux : Bool → List Char → List Char
  | _, [] => []
  | afterA, c :: rest =>
    if afterA && isPySpace c then collapseAposAux true rest
    else if c = apos then c :: collapseAposAux true rest
    else c :: collapseAposAux false rest

/-- The apostrophe-spacing collapse of `_norm`. -/
def collapseApos (l : List Char) : List Char :=
  collapseAposAux false l

/-- `_norm(s)` from `check_answer`: strip, lower, remove accents (which lowers
again), collapse apostrophe spacing. -/
def pyNorm (l : List Char) : List Char :=
  collapseApos (removeAccentsL ((pyStrip l).map pyLower))

/-- `remove_accents(ans.strip().lower())` as applied to each split alternative
in the standard path: like `pyNorm` but without the apostrophe collapse. -/
def normNoApos (l : List Char) : List Char :=
  removeAccentsL ((pyStrip l).map pyLower)

example : pyNorm "  CaffÈ ".data = "caffe".data := by decide

example : collapseApos ('l' :: apos :: ' ' :: "isola".data) = ('l' :: apos :: "isola".data) := by
  decide

/-- Boolean test that `p` is an initial segment of `l`. -/
def prefB : List Char → List Char → Bool
  | [], _ => true
  | _ :: _, [] => false
  | a :: as, b :: bs => a = b && prefB as bs

/-- Boolean substring test (Python `a in b` on strings). -/
def infixB (n : List Char) : List Char → Bool
  | [] => n.isEmpty
  | c :: rest => prefB n (c :: rest) || infixB n rest

/-- The regex word-boundary requirement to the right of a match whose pattern
ends in a word character: either end of text or a non-word character next. -/
def bAfter : List Char → Bool
  | [] => true
  | c :: _ => !isWordChar c

/-- Scanner for `re.sub(r'\b' + w + r'\b', d, text)` where every pattern `w`
used by the engine starts and ends with a word character.  `prevW` records
whether the previously scanned character was a word character (so that the
left boundary can be checked); matches are non-overlapping and scanning
resumes after a match, exactly as `re.sub` does.  The fuel argument makes the
recursion structural; `replaceWord` supplies fuel equal to the text length,
which is enough since every step consumes at least one character. -/
def replaceWordAux (w d : List Char) : Nat → Bool → List Char → List Char
  | 0, _, t => t
  | _ + 1, _, [] => []
  | fuel + 1, prevW, c :: rest =>
    if w ≠ [] ∧ prevW = false ∧ prefB w (c :: rest) = true ∧
        bAfter ((c :: rest).drop w.length) = true then
      d ++ replaceWordAux w d fuel true ((c :: rest).drop w.length)
    else
      c :: replaceWordAux w d fuel (isWordChar c) rest

/-- Whole-word replacement of `w` by `d` in `t`. -/
def replaceWord (w d t : List Char) : List Char :=
  replaceWordAux w d t.length false t

/-- The `number_words` dict of `check_answer`, in insertion order. -/
def numberWordPairs : List (List Char × List Char) :=
  [("zero".data, "0".data), ("one".data, "1".data), ("two".data, "2".data),
   ("three".data, "3".data), ("four".data, "4".data), ("five".data, "5".data),
   ("six".data, "6".data), ("seven".data, "7".data), ("eight".data, "8".data),
   ("nine".data, "9".data), ("ten".data, "10".data), ("eleven".data, "11".data),
   ("twelve".data, "12".data), ("thirteen".data, "13".data),
   ("fourteen".data, "14".data), ("fifteen".data, "15".data),
   ("sixteen".data, "16".data), ("seventeen".data, "17".data),
   ("eighteen".data, "18".data), ("nineteen".data, "19".data),
   ("twenty".data, "20".data), ("twenty-one".data, "21".data),
   ("twenty-two".data, "22".data), ("twenty-three".data, "23".data),
   ("twenty-four".data, "24".data), ("twenty-five".data, "25".data),
   ("twenty-six".data, "26".data), ("twenty-seven".data, "27".data),
   ("twenty-eight".data, "28".data), ("twenty-nine".data, "29".data),
   ("thirty".data, "30".data), ("forty".data, "40".data), ("fifty".data, "50".data),
   ("sixty".data, "60".data), ("seventy".data, "70".data), ("eighty".data, "80".data),
   ("ninety".data, "90".data), ("hundred".data, "100".data)]

/-- `normalize_numbers(text)`: substitute each number word (in dict order) by
its digit string, whole words only. -/
def normalizeNumbers (t : List Char) : List Char :=
  numberWordPairs.foldl (fun acc p => replaceWord p.1 p.2 acc) t

/-- The digit → word pairs in the order `denormalize_numbers` iterates them:
digit keys sorted by length, longest first; Python's stable sort keeps the
insertion order of `digit_to_word` inside each length class. -/
def digitWordPairs : List (List Char × List Char) :=
  [("100".data, "hundred".data),
   ("10".data, "ten".data), ("11".data, "eleven".data), ("12".data, "twelve".data),
   ("13".data, "thirteen".data), ("14".data, "fourteen".data),
   ("15".data, "fifteen".data), ("16".data, "sixteen".data),
   ("17".data, "seventeen".data), ("18".data, "eighteen".data),
   ("19".data, "nineteen".data), ("20".data, "twenty".data),
   ("21".data, "twenty-one".data), ("22".data, "twenty-two".data),
   ("23".data, "twenty-three".data), ("24".data, "twenty-four".data),
   ("25".data, "twenty-five".data), ("26".data, "twenty-six".data),
   ("27".data, "twenty-seven".data), ("28".data, "twenty-eight".data),
   ("29".data, "twenty-nine".data), ("30".data, "thirty".data),
   ("40".data, "forty".data), ("50".data, "fifty".data), ("60".data, "sixty".data),
   ("70".data, "seventy".data), ("80".data, "eighty".data), ("90".data, "ninety".data),
   ("0".data, "zero".data), ("1".data, "one".data), ("2".data, "two".data),
   ("3".data, "three".data), ("4".data, "four".data), ("5".data, "five".data),
   ("6".data, "six".data), ("7".data, "seven".data), ("8".data, "eight".data),
   ("9".data, "nine".data)]

/-- `denormalize_numbers(text)`: substitute digit strings (longest keys first)
by their number words, whole words only. -/
def denormalizeNumbers (t : List Char) : List Char :=
  digitWordPairs.foldl (fun acc p => replaceWord p.1 p.2 acc) t

example : normalizeNumbers "twenty-seven".data = "20-7".data := by decide

example : normalizeNumbers "often ten tent".data = "often 10 tent".data := by decide

example : denormalizeNumbers "27".data = "twenty-seven".data := by decide

example : denormalizeNumbers "20-7".data = "twenty-seven".data := by decide

/-- Python `string.punctuation`, by code point. -/
def pyPunct : List Char :=
  [33, 34, 35, 36, 37, 38, 39, 40, 41, 42, 43, 44, 45, 46, 47, 58, 59, 60, 61,
   62, 63, 64, 91, 92, 93, 94, 95, 96, 123, 124, 125, 126].map Char.ofNat

/-- `text.translate(str.maketrans('', '', string.punctuation))`: delete every
punctuation character. -/
def stripPunct (l : List Char) : List Char :=
  l.filter (fun c => !pyPunct.contains c)

/-- Accumulator-based scanner for Python `str.split()` with no argument:
split on runs of whitespace, producing no empty tokens. -/
def splitWsAux (acc : List Char) : List Char → List (List Char)
  | [] => if acc = [] then [] else [acc.reverse]
  | c :: rest =>
    if isPySpace c then
      if acc = [] then splitWsAux [] rest else acc.reverse :: splitWsAux [] rest
    else splitWsAux (c :: acc) rest

/-- Python `str.split()` on whitespace. -/
def splitWs (l : List Char) : List (List Char) :=
  splitWsAux [] l

/-- Scanner for `re.split(r'/|,\s*', s)`: a cut at every slash, and at every
comma together with the following whitespace run.  The flag records that a
comma was just consumed, so pending whitespace belongs to the delimiter. -/
def splitSpecAux (skipWs : Bool) (acc : List Char) : List Char → List (List Char)
  | [] => [acc.reverse]
  | c :: rest =>
    if skipWs ∧ isPySpace c = true then splitSpecAux true acc rest
    else if c = '/' then acc.reverse :: splitSpecAux false [] rest
    else if c = ',' then acc.reverse :: splitSpecAux true [] rest
    else splitSpecAux false (c :: acc) rest

/-- `re.split(r'/|,\s*', s)`, the alternative expansion of `check_answer`
(empty pieces are kept, exactly as `re.split` keeps them). -/
def splitSpec (l : List Char) : List (List Char) :=
  splitSpecAux false [] l

example : splitSpec "a/b, c".data = ["a".data, "b".data, "c".data] := by decide

example : splitSpec "small//low".data = ["small".data, "".data, "low".data] := by decide

/-- The `stopwords` set of the sentence-translation branch. -/
def stStopwords : List (List Char) :=
  ["the".data, "a".data, "an".data, "is".data, "am".data, "are".data, "was".data,
   "were".data, "be".data, "been".data, "being".data,
   "il".data, "lo".data, "la".data, "i".data, "gli".data, "le".data,
   ['l', apos], "un".data, "una".data, "uno".data,
   "di".data, "da".data, "in".data, "con".data, "su".data, "per".data,
   "tra".data, "fra".data,
   "to".data, "at".data, "on".data, "of".data, "from".data, "with".data,
   "by".data, "for".data]

/-- The `synonyms` dict of the sentence-translation branch, in insertion order. -/
def stSynonyms : List (List Char × List (List Char)) :=
  [("cinema".data, ["movies".data, "movie".data, "theater".data, "theatre".data]),
   ("movies".data, ["cinema".data, "movie".data, "theater".data, "theatre".data]),
   ("movie".data, ["cinema".data, "movies".data, "theater".data, "theatre".data]),
   ("theater".data, ["cinema".data, "movies".data, "movie".data, "theatre".data]),
   ("go".data, ["going".data, "went".data]),
   ("went".data, ["go".data, "going".data]),
   ("going".data, ["go".data, "went".data]),
   ("tired".data, ["sleepy".data, "exhausted".data]),
   ("hungry".data, ["starving".data]),
   ("thirsty".data, ["parched".data])]

/-- First-match lookup in a word-keyed table (Python dict semantics, keys
distinct). -/
def wlookup (w : List Char) : List (List Char × List (List Char)) → Option (List (List Char))
  | [] => none
  | (k, v) :: rest => if w = k then some v else wlookup w rest

/-- Python `str(xs)` for a list of strings not containing quotes: items wrapped
in single quotes, joined by a comma and space inside square brackets. -/
def pyStrOfList (ws : List (List Char)) : List Char :=
  let item := fun (w : List Char) => apos :: w ++ [apos]
  let rec joinRest : List (List Char) → List Char
    | [] => []
    | w :: rest => ',' :: ' ' :: item w ++ joinRest rest
  match ws with
  | [] => ['[', ']']
  | w :: rest => '[' :: item w ++ joinRest rest ++ [']']

/-- Forward content-word matches of the sentence-translation branch: one match
per occurrence of a correct content word found in the user's content words
directly or through a curated synonym. -/
def stForwardMatches (ccw ucw : List (List Char)) : Nat :=
  ccw.countP (fun w =>
    ucw.contains w ||
      (match wlookup w stSynonyms with
       | some syns => syns.any (fun s => ucw.contains s)
       | none => false))

/-- Reverse matches: one per user content word found among the correct content
words, or — as the code literally does — occurring as a substring of the
printed Python list of its own synonyms (`word in str(synonyms.get(word, []))`). -/
def stReverseMatches (ucw ccw : List (List Char)) : Nat :=
  ucw.countP (fun w =>
    ccw.contains w ||
      infixB w (pyStrOfList ((wlookup w stSynonyms).getD [])))

/-- The acceptance decision of the sentence-translation branch, applied to the
digit-normalised user and correct texts: strip punctuation, tokenise, drop
stopwords, then accept at forward similarity ≥ 0.5 or reverse similarity ≥ 0.6
(the divisions are exact on these small integers, so the float comparisons are
the rational ones). -/
def stAccept (uwd cwd : List Char) : Bool :=
  let ucw := (splitWs (stripPunct uwd)).filter (fun w => !stStopwords.contains w)
  let ccw := (splitWs (stripPunct cwd)).filter (fun w => !stStopwords.contains w)
  (ccw ≠ [] ∧ 2 * stForwardMatches ccw ucw ≥ ccw.length) ∨
  (ucw ≠ [] ∧ ccw ≠ [] ∧ 5 * stReverseMatches ucw ccw ≥ 3 * ucw.length)

/-- The `vocab_synonyms` dict of the standard path, in insertion order. -/
def vocabSynonyms : List (List Char × List (List Char)) :=
  [("small".data, ["little".data, "tiny".data, "petite".data]),
   ("little".data, ["small".data, "tiny".data]),
   ("big".data, ["large".data, "great".data]),
   ("large".data, ["big".data, "great".data]),
   ("bike".data, ["bicycle".data, "bici".data]),
   ("bicycle".data, ["bike".data, "bici".data]),
   ("bici".data, ["bicycle".data, "bike".data, "bicicletta".data]),
   ("bicicletta".data, ["bike".data, "bicycle".data, "bici".data]),
   ("to go".data, ["to leave".data, "to walk".data]),
   ("to look".data, ["to watch".data, "to see".data]),
   ("to see".data, ["to look".data, "to watch".data]),
   ("to wish".data, ["to want".data, "to desire".data]),
   ("to want".data, ["to wish".data, "to desire".data]),
   ("to speak".data, ["to talk".data, "to say".data]),
   ("to talk".data, ["to speak".data, "to chat".data]),
   ("to listen".data, ["to hear".data]),
   ("to hear".data, ["to listen".data]),
   ("to get".data, ["to obtain".data, "to receive".data, "to take".data]),
   ("to take".data, ["to get".data, "to grab".data]),
   ("to like".data, ["to enjoy".data, "to love".data]),
   ("to enjoy".data, ["to like".data, "to love".data]),
   ("to begin".data, ["to start".data]),
   ("to start".data, ["to begin".data]),
   ("to finish".data, ["to end".data, "to complete".data]),
   ("to end".data, ["to finish".data, "to complete".data]),
   ("to live".data, ["to reside".data]),
   ("to work".data, ["to labour".data, "to labor".data]),
   ("to wait".data, ["to wait for".data]),
   ("to wait for".data, ["to wait".data]),
   ("to know".data, ["to understand".data, "to recognise".data, "to recognize".data]),
   ("to understand".data, ["to know".data, "to comprehend".data]),
   ("to help".data, ["to assist".data, "to aid".data]),
   ("to try".data, ["to attempt".data]),
   ("to walk".data, ["to go on foot".data, "to stroll".data]),
   ("beautiful".data, ["pretty".data, "lovely".data, "gorgeous".data]),
   ("pretty".data, ["beautiful".data, "lovely".data]),
   ("lovely".data, ["beautiful".data, "pretty".data]),
   ("happy".data, ["glad".data, "joyful".data, "pleased".data]),
   ("glad".data, ["happy".data, "pleased".data]),
   ("sad".data, ["unhappy".data, "upset".data]),
   ("tired".data, ["exhausted".data, "sleepy".data, "weary".data]),
   ("angry".data, ["upset".data, "annoyed".data, "cross".data]),
   ("correct".data, ["right".data]),
   ("right".data, ["correct".data]),
   ("wrong".data, ["incorrect".data]),
   ("incorrect".data, ["wrong".data]),
   ("fast".data, ["quick".data, "rapid".data]),
   ("quick".data, ["fast".data, "rapid".data]),
   ("slow".data, ["sluggish".data]),
   ("mum".data, ["mom".data, "mother".data, "mamma".data]),
   ("mom".data, ["mum".data, "mother".data, "mamma".data]),
   ("mother".data, ["mum".data, "mom".data, "mamma".data]),
   ("dad".data, ["father".data, "papa".data, "papà".data]),
   ("father".data, ["dad".data, "papa".data, "papà".data]),
   ("flat".data, ["apartment".data]),
   ("apartment".data, ["flat".data]),
   ("shop".data, ["store".data, "negozio".data]),
   ("store".data, ["shop".data]),
   ("film".data, ["movie".data, "cinema".data]),
   ("movie".data, ["film".data, "cinema".data]),
   ("friend".data, ["mate".data, "pal".data]),
   ("holiday".data, ["vacation".data, "holidays".data]),
   ("vacation".data, ["holiday".data, "holidays".data]),
   ("holidays".data, ["holiday".data, "vacation".data]),
   ("autumn".data, ["fall".data]),
   ("fall".data, ["autumn".data]),
   ("lift".data, ["elevator".data]),
   ("elevator".data, ["lift".data]),
   ("jumper".data, ["sweater".data, "pullover".data]),
   ("sweater".data, ["jumper".data, "pullover".data]),
   ("trousers".data, ["pants".data]),
   ("pants".data, ["trousers".data]),
   ("chemist".data, ["pharmacy".data, "pharmacist".data]),
   ("pharmacy".data, ["chemist".data, "drugstore".data]),
   ("theatre".data, ["theater".data]),
   ("theater".data, ["theatre".data]),
   ("colour".data, ["color".data]),
   ("color".data, ["colour".data]),
   ("neighbour".data, ["neighbor".data]),
   ("neighbor".data, ["neighbour".data]),
   ("travelling".data, ["traveling".data]),
   ("traveling".data, ["travelling".data]),
   ("rubbish".data, ["garbage".data, "trash".data]),
   ("garbage".data, ["rubbish".data, "trash".data]),
   ("trash".data, ["rubbish".data, "garbage".data]),
   ("mobile phone".data, ["cell phone".data, "cellphone".data, "mobile".data]),
   ("cell phone".data, ["mobile phone".data, "mobile".data]),
   ("mobile".data, ["mobile phone".data, "cell phone".data]),
   ("football".data, ["soccer".data]),
   ("soccer".data, ["football".data]),
   ("post office".data, ["mail office".data]),
   ("town hall".data, ["city hall".data]),
   ("city hall".data, ["town hall".data]),
   ("illness".data, ["sickness".data, "disease".data]),
   ("sickness".data, ["illness".data, "disease".data]),
   ("disease".data, ["illness".data, "sickness".data]),
   ("stomach ache".data, ["stomachache".data, "stomach pain".data]),
   ("stomachache".data, ["stomach ache".data, "stomach pain".data]),
   ("headache".data, ["head ache".data]),
   ("toothache".data, ["tooth ache".data]),
   ("clever".data, ["intelligent".data, "smart".data, "bright".data]),
   ("intelligent".data, ["clever".data, "smart".data, "bright".data]),
   ("smart".data, ["clever".data, "intelligent".data]),
   ("hardworking".data, ["diligent".data, "studious".data, "hard-working".data]),
   ("diligent".data, ["hardworking".data, "studious".data]),
   ("brave".data, ["courageous".data, "bold".data]),
   ("courageous".data, ["brave".data, "bold".data]),
   ("kind".data, ["nice".data, "gentle".data, "caring".data]),
   ("gentle".data, ["kind".data, "nice".data]),
   ("selfish".data, ["self-centred".data, "self-centered".data]),
   ("shy".data, ["timid".data, "bashful".data]),
   ("timid".data, ["shy".data, "bashful".data])]

/-- `vocab_synonyms.get(key, [])`. -/
def vocabGet (w : List Char) : List (List Char) :=
  (wlookup w vocabSynonyms).getD []

/-- The string `"to "`. -/
def toSp : List Char := "to ".data

/-- The string `"the "`. -/
def theSp : List Char := "the ".data

/-- Python `s.lstrip('to ')`: drop every leading character belonging to the
set of letters of the argument, here `t`, `o` and the space. -/
def lstripToChars (l : List Char) : List Char :=
  l.dropWhile (fun c => c = 't' || c = 'o' || c = ' ')

/-- The article test of the bare-infinitive heuristic:
`ans.startswith(('il ', 'la ', 'i ', 'gli ', 'le ', "l'"))`. -/
def startsWithArticle (l : List Char) : Bool :=
  prefB "il ".data l || prefB "la ".data l || prefB "i ".data l ||
  prefB "gli ".data l || prefB "le ".data l || prefB ['l', apos] l

/-- The `all_acceptable` list built from one split alternative: the alternative,
its digit-normalised form, and the infinitive-marker variants. -/
def acceptVariants (ans : List Char) : List (List Char) :=
  [ans, normalizeNumbers ans] ++
    (if prefB toSp ans then
      [ans.drop 3, normalizeNumbers (ans.drop 3)]
    else if ¬ ans.contains ' ' ∧ startsWithArticle ans = false then
      [toSp ++ ans, toSp ++ normalizeNumbers ans]
    else [])

/-- `all_acceptable` for a raw answer specification. -/
def allAcceptable (correct : List Char) : List (List Char) :=
  ((splitSpec correct).map normNoApos).flatMap acceptVariants

/-- `all_acceptable_normalized`: every acceptable variant together with its
digit-normalised and word-denormalised forms. -/
def allAcceptableNormalized (correct : List Char) : List (List Char) :=
  (allAcceptable correct).flatMap
    (fun a => [a, normalizeNumbers a, denormalizeNumbers a])

/-- One iteration of the vocabulary-synonym loop body for an acceptable
alternative `acc` against the normalised user answer. -/
def vocabHit (un acc : List Char) : Bool :=
  let uStrip := if prefB toSp un then lstripToChars un else un
  let uNoThe := if prefB theSp un then un.drop 4 else un
  let accStrip := if prefB toSp acc then lstripToChars acc else acc
  let accNoThe := if prefB theSp acc then acc.drop 4 else acc
  let syns := vocabGet acc ++ vocabGet accNoThe ++ vocabGet (toSp ++ accStrip)
  let synsNoThe := syns.map (fun s => if prefB theSp s then s.drop 4 else s)
  syns.contains un || (syns.map lstripToChars).contains uStrip ||
    synsNoThe.contains uNoThe

/-- Bug-0125 subset rule: the token set of the normalised correct answer is
non-empty, contained in the user's token set, and strictly smaller. -/
def subsetRule (un cn : List Char) : Bool :=
  let cset := (splitWs cn).dedup
  let uset := (splitWs un).dedup
  cset ≠ [] ∧ (∀ w ∈ splitWs cn, w ∈ splitWs un) ∧ cset.length < uset.length

/-- The verdict of the standard path of `check_answer` for a normalised user
answer: acceptance-set membership, then the vocabulary-synonym loop, then the
subset rule. -/
def stdCorrect (user correct : List Char) : Bool :=
  let un := pyNorm user
  let cn := pyNorm correct
  let aan := allAcceptableNormalized correct
  if aan.contains un || aan.contains (normalizeNumbers un) ||
      aan.contains (denormalizeNumbers un) then true
  else if (allAcceptable correct).any (fun acc => vocabHit un acc) then true
  else subsetRule un cn

/-- The display answer computed at the end of `check_answer`: the stripped
first split piece when the specification contains a slash or a comma, and the
raw specification otherwise. -/
def displayAns (correct : List Char) : List Char :=
  if correct.contains '/' || correct.contains ',' then
    pyStrip ((splitSpec correct).headD [])
  else correct

/-- The question-category tag of the sentence-translation branch. -/
def stCat : List Char := "sentence_translation".data

/-- The question-category tag of the negation branch. -/
def negCat : List Char := "negation".data

/-- `check_answer(user_answer, correct_answer, question_type)` from `app.py`:
the sentence-translation early accept, the negation punctuation-insensitive
early accept, then the standard path; the early accepts return the raw
specification as display answer, the standard path returns `displayAns`. -/
def checkAnswer (user correct : List Char) (qt : Option (List Char)) :
    Bool × List Char :=
  let un := pyNorm user
  let cn := pyNorm correct
  if qt = some stCat ∧ stAccept (normalizeNumbers un) (normalizeNumbers cn) = true then
    (true, correct)
  else if qt = some negCat ∧ stripPunct un = stripPunct cn then
    (true, correct)
  else
    (stdCorrect user correct, displayAns correct)

example : (checkAnswer "low".data "small/low".data none).1 = true := by decide

example : checkAnswer "tiny".data "small/low".data none = (true, "small".data) := by decide

/-- Claim C1 (code bug evidence): in the sentence-translation scorer, with
user answer `movie` and correct answer `dog`, the user token `movie` is absent
from the correct content words and its curated synonym set
`{cinema, movies, theater, theatre}` is disjoint from them, so by the claim no
reverse match may be counted and the answer must be rejected; the code instead
tests `word in str(synonyms.get(word, []))`, finds `movie` inside the printed
item `'movies'`, counts a reverse match, and accepts. -/
theorem c1_reverse_match_string_containment :
    checkAnswer "movie".data "dog".data (some stCat) = (true, "dog".data) ∧
      (∀ s ∈ (wlookup "movie".data stSynonyms).getD [], s ∉ ["dog".data]) ∧
      "movie".data ∉ ["dog".data] := by
  refine ⟨by decide, by decide, by decide⟩

/-- Claim C2 counterexample: under `category = negation` the call
`check_answer("ab", "a/b")` accepts through the punctuation-insensitive early
return and hands back the whole raw specification `a/b` as display answer,
not the first alternative `a`. -/
theorem c2_display_counterexample :
    (checkAnswer "ab".data "a/b".data (some negCat)).1 = true ∧
      (checkAnswer "ab".data "a/b".data (some negCat)).2 = "a/b".data ∧
      (checkAnswer "ab".data "a/b".data (some negCat)).2 ≠
        pyStrip ((splitSpec "a/b".data).headD []) := by
  refine ⟨by decide, by decide, by decide⟩

/-- Claim C2 as amended: whenever the call does not return through the
sentence-translation or negation early accepts — whether because the category
differs or because the accept condition fails and the call falls through to
the standard path — the returned display answer is `displayAns`, i.e. the
stripped first delimited alternative when the specification contains a slash
or comma and the raw specification otherwise, independently of the user answer
and of which rule decided correctness. -/
theorem c2_display_first_alternative (user correct : List Char)
    (qt : Option (List Char))
    (hst : ¬ (qt = some stCat ∧
      stAccept (normalizeNumbers (pyNorm user)) (normalizeNumbers (pyNorm correct)) = true))
    (hneg : ¬ (qt = some negCat ∧ stripPunct (pyNorm user) = stripPunct (pyNorm correct))) :
    (checkAnswer user correct qt).2 = displayAns correct := by
  show (if qt = some stCat ∧
      stAccept (normalizeNumbers (pyNorm user)) (normalizeNumbers (pyNorm correct)) = true then
        ((true : Bool), correct)
      else if qt = some negCat ∧ stripPunct (pyNorm user) = stripPunct (pyNorm correct) then
        ((true : Bool), correct)
      else (stdCorrect user correct, displayAns correct)).2 = displayAns correct
  rw [if_neg hst, if_neg hneg]

/-- Claim C2 witness: a negation-category call that fails the
punctuation-insensitive equality falls through to the standard path and
displays the first alternative. -/
theorem c2_display_first_alternative_witness :
    (checkAnswer "xyz".data "a/b".data (some negCat)).2 = "a".data := by
  rw [c2_display_first_alternative "xyz".data "a/b".data (some negCat)
    (by decide) (by decide)]
  decide

/-- Claim C3 counterexample: `check_answer("tiny", "small/low")` returns
`is_correct = true`, because the curated vocabulary table lists `tiny` among
the synonyms of the alternative `small`; the claim asserts it returns false. -/
theorem c3_tiny_counterexample :
    (checkAnswer "tiny".data "small/low".data none).1 = true ∧
      "tiny".data ∈ vocabGet "small".data := by
  refine ⟨by decide, by decide⟩

/-- Claim C3 as amended: for the specification `small/low` with no category,
`check_answer("low", "small/low")` is correct via the acceptance set, and
`check_answer("tiny", "small/low")` is also correct via the curated synonym
set of `small`. -/
theorem c3_small_low :
    (checkAnswer "low".data "small/low".data none).1 = true ∧
      (checkAnswer "tiny".data "small/low".data none).1 = true := by
  refine ⟨by decide, by decide⟩

/-- Claim C5 counterexample: the curated table maps `friend` to `{mate, pal}`
and has no entry for `mate`, so with user answer `friend` and correct answer
`mate` the acceptable alternative lies in the user token's synonym set, yet
`check_answer("friend", "mate")` rejects: the loop only consults the synonym
sets of the acceptable alternatives, never the user's. -/
theorem c5_one_directional_counterexample :
    (checkAnswer "friend".data "mate".data none).1 = false ∧
      "mate".data ∈ vocabGet "friend".data := by
  refine ⟨by decide, by decide⟩

/-- Claim C5 as amended: the synonym check of the standard path is
one-directional — it accepts when the user's normalised answer appears in an
acceptable alternative's synonym set (`check_answer("mate", "friend")` is
correct) but not when the acceptable alternative merely appears in the user
token's synonym set (`check_answer("friend", "mate")` is incorrect). -/
theorem c5_synonym_direction :
    (checkAnswer "mate".data "friend".data none).1 = true ∧
      (checkAnswer "friend".data "mate".data none).1 = false := by
  refine ⟨by decide, by decide⟩

/-- Claim C6 counterexample: the empty alternative produced by the doubled
delimiter in `small//low` is kept by the expansion, so the empty user answer
is accepted. -/
theorem c6_empty_alternative_counterexample :
    checkAnswer "".data "small//low".data none = (true, "small".data) := by
  decide

/-- Claim C6 as amended: empty alternatives arising from doubled delimiters
are kept, not dropped, so `check_answer("", "small//low")` returns
`is_correct = true`; for a specification without empty alternatives such as
`small/low`, the empty user answer is rejected. -/
theorem c6_empty_alternatives :
    (checkAnswer "".data "small//low".data none).1 = true ∧
      (checkAnswer "".data "small/low".data none).1 = false := by
  refine ⟨by decide, by decide⟩

/-- Claim C7: number equivalence is bidirectional at the top level —
`check_answer("27", "twenty-seven")` and `check_answer("twenty-seven", "27")`
with no category both return `is_correct = true`. -/
theorem c7_number_equivalence_bidirectional :
    (checkAnswer "27".data "twenty-seven".data none).1 = true ∧
      (checkAnswer "twenty-seven".data "27".data none).1 = true := by
  refine ⟨by decide, by decide⟩

/-- Claim C8 counterexample: the specification is split on slashes and commas
in one simultaneous pass, so `a/b, c` yields the three alternatives
`a`, `b`, `c`, not the two alternatives `a` and `b, c` asserted by the claim. -/
theorem c8_split_counterexample :
    splitSpec "a/b, c".data = ["a".data, "b".data, "c".data] ∧
      splitSpec "a/b, c".data ≠ ["a".data, "b, c".data] := by
  refine ⟨by decide, by decide⟩

/-- Claim C8 as amended: the expander splits on `/` and on `,` followed by
optional whitespace simultaneously, so a comma inside an alternative does
create a new alternative even when a `/` is present: `a/b, c` yields exactly
`a`, `b` and `c`, and `c` alone is accepted for that specification. -/
theorem c8_split_simultaneous :
    splitSpec "a/b, c".data = ["a".data, "b".data, "c".data] ∧
      (checkAnswer "c".data "a/b, c".data none).1 = true := by
  refine ⟨by decide, by decide⟩

/-- A successful Boolean prefix test exposes the remaining suffix. -/
theorem prefB_exists {w l : List Char} (h : prefB w l = true) :
    ∃ s, l = w ++ s := by
  induction w generalizing l with
  | nil => exact ⟨l, rfl⟩
  | cons a as ih =>
    cases l with
    | nil => simp [prefB] at h
    | cons b bs =>
      simp only [prefB, Bool.and_eq_true, decide_eq_true_iff] at h
      obtain ⟨rfl, hp⟩ := h
      obtain ⟨s, rfl⟩ := ih hp
      exact ⟨s, rfl⟩

/-- Once the scanner of `replaceWord` is past a word character, a text made
entirely of word characters is copied unchanged: no later position offers a
left word boundary. -/
theorem replaceWordAux_inword_id (w d : List Char) :
    ∀ fuel t, (∀ c ∈ t, isWordChar c = true) →
      replaceWordAux w d fuel true t = t := by
  intro fuel
  induction fuel with
  | zero => intro t _; rfl
  | succ n ih =>
    intro t ht
    cases t with
    | nil => rfl
    | cons c rest =>
      show (if _ ∧ (true = false) ∧ _ ∧ _ then _ else _) = _
      rw [if_neg (fun hcond => by exact absurd hcond.2.1 (by simp))]
      rw [ht c (List.mem_cons_self c rest)]
      exact congrArg (c :: ·) (ih rest (fun x hx => ht x (List.mem_cons_of_mem c hx)))

/-- A text that consists of word characters only and is not literally the
pattern is left unchanged by `replaceWord`: the whole text is one word, and
the right boundary can never fall inside it. -/
theorem replaceWordAux_single_word_id (w d : List Char) :
    ∀ fuel t, (∀ c ∈ t, isWordChar c = true) → t ≠ w →
      replaceWordAux w d fuel false t = t := by
  intro fuel
  induction fuel with
  | zero => intro t _ _; rfl
  | succ n _ =>
    intro t ht hne
    cases t with
    | nil => rfl
    | cons c rest =>
      show (if _ then _ else _) = _
      rw [if_neg]
      · rw [ht c (List.mem_cons_self c rest)]
        exact congrArg (c :: ·)
          (replaceWordAux_inword_id w d n rest
            (fun x hx => ht x (List.mem_cons_of_mem c hx)))
      · rintro ⟨-, -, hpref, hafter⟩
        obtain ⟨s, hs⟩ := prefB_exists hpref
        cases s with
        | nil => exact hne (by simpa using hs)
        | cons c2 s2 =>
          rw [hs, List.drop_left] at hafter
          have hc2 : isWordChar c2 = true := by
            refine ht c2 ?_
            rw [hs]
            exact List.mem_append_right w (List.mem_cons_self c2 s2)
          simp [bAfter, hc2] at hafter

/-- Folding whole-word replacements over a table leaves a single all-word
token unchanged when it differs from every pattern in the table. -/
theorem foldl_replaceWord_id (ps : List (List Char × List Char)) :
    ∀ t, (∀ c ∈ t, isWordChar c = true) → (∀ p ∈ ps, t ≠ p.1) →
      ps.foldl (fun acc p => replaceWord p.1 p.2 acc) t = t := by
  induction ps with
  | nil => intro t _ _; rfl
  | cons p ps ih =>
    intro t ht hne
    have hstep : replaceWord p.1 p.2 t = t :=
      replaceWordAux_single_word_id p.1 p.2 t.length t ht
        (hne p (List.mem_cons_self p ps))
    simp only [List.foldl_cons, replaceWord] at *
    rw [hstep]
    exact ih t ht (fun q hq => hne q (List.mem_cons_of_mem p hq))

/-- Claim C4 counterexample: `normalize_numbers` rewrites the simple words
first (`seven` then `twenty` fire before the compound entry is reached), so
the text `twenty-seven` becomes `20-7`, not the `27` asserted by the claim. -/
theorem c4_twenty_seven_counterexample :
    normalizeNumbers "twenty-seven".data = "20-7".data ∧
      normalizeNumbers "twenty-seven".data ≠ "27".data := by
  refine ⟨by decide, by decide⟩

/-- Claim C4 as amended: `normalize_numbers` substitutes number words at word
boundaries only, but applies the table in insertion order, so the simple words
inside a hyphenated compound fire first and `twenty-seven` yields `20-7`
rather than `27`; a number word occurring merely as part of a longer run of
word characters is never substituted — any single all-word-character token
different from every table key is left unchanged. -/
theorem c4_word_boundaries (t : List Char)
    (hword : ∀ c ∈ t, isWordChar c = true)
    (hkey : ∀ p ∈ numberWordPairs, t ≠ p.1) :
    normalizeNumbers "twenty-seven".data = "20-7".data ∧ normalizeNumbers t = t := by
  exact ⟨by decide, foldl_replaceWord_id numberWordPairs t hword hkey⟩

/-- Claim C4 witness: the token `tent` contains the number word `ten` but is
itself no table key, so it passes `normalize_numbers` unchanged. -/
theorem c4_word_boundaries_witness :
    normalizeNumbers "twenty-seven".data = "20-7".data ∧
      normalizeNumbers "tent".data = "tent".data :=
  c4_word_boundaries "tent".data (by decide) (by decide)
/-- On input without whitespace, the split scanner returns the accumulator
joined with the remaining text as a single token (or nothing when both are
empty). -/
theorem splitWsAux_nonspace :
    ∀ l acc, (∀ c ∈ l, isPySpace c = false) →
      splitWsAux acc l =
        if acc = [] ∧ l = [] then [] else [acc.reverse ++ l] := by
  intro l
  induction l with
  | nil =>
    intro acc _
    by_cases h : acc = [] <;> simp [splitWsAux, h]
  | cons c rest ih =>
    intro acc hc
    have hcsp : isPySpace c = false := hc c (List.mem_cons_self c rest)
    simp only [splitWsAux, hcsp, Bool.false_eq_true, if_false]
    rw [ih (c :: acc) (fun x hx => hc x (List.mem_cons_of_mem c hx))]
    simp

/-- A non-empty text without whitespace tokenises to itself alone. -/
theorem splitWs_nonspace (l : List Char) (hne : l ≠ [])
    (h : ∀ c ∈ l, isPySpace c = false) : splitWs l = [l] := by
  unfold splitWs
  rw [splitWsAux_nonspace l [] h]
  simp [hne]

/-- Claim C10: for a specification whose normalised form is non-empty and
contains no whitespace (such as `small/low`, slash included), the subset rule
tokenises the whole normalised specification into the single delimiter-joined
token, and accepts exactly the user answers whose whitespace token set
contains that joined token together with at least one further distinct token. -/
theorem c10_subset_rule_joined_token (spec user : List Char)
    (_hslash : '/' ∈ spec) (hne : pyNorm spec ≠ [])
    (hnospace : ∀ c ∈ pyNorm spec, isPySpace c = false) :
    splitWs (pyNorm spec) = [pyNorm spec] ∧
      (subsetRule (pyNorm user) (pyNorm spec) = true ↔
        (pyNorm spec ∈ splitWs (pyNorm user) ∧
          1 < (splitWs (pyNorm user)).dedup.length)) := by
  have hsp : splitWs (pyNorm spec) = [pyNorm spec] :=
    splitWs_nonspace (pyNorm spec) hne hnospace
  refine ⟨hsp, ?_⟩
  unfold subsetRule
  rw [hsp]
  simp [decide_eq_true_iff]

/-- Claim C10 witness: the user answer `small/low extra` contains the joined
token `small/low` plus one more token, so the subset rule accepts it. -/
theorem c10_subset_rule_joined_token_witness :
    subsetRule (pyNorm "small/low extra".data) (pyNorm "small/low".data) = true :=
  (c10_subset_rule_joined_token "small/low".data "small/low extra".data
    (by decide) (by decide) (by decide)).2.mpr ⟨by decide, by decide⟩

/-- A successful lookup comes from an entry of the table. -/
theorem clookup_mem : ∀ {ps : List (Char × Char)} {c v : Char},
    clookup c ps = some v → (c, v) ∈ ps := by
  intro ps
  induction ps with
  | nil => intro c v h; simp [clookup] at h
  | cons p rest ih =>
    intro c v h
    obtain ⟨k, w⟩ := p
    by_cases hck : c = k
    · subst hck
      simp [clookup] at h
      simp [h]
    · rw [clookup, if_neg hck] at h
      exact List.mem_cons_of_mem _ (ih h)

/-- Mapping a function that fixes every element of a list is the identity. -/
theorem map_fix {f : Char → Char} : ∀ {l : List Char},
    (∀ c ∈ l, f c = c) → l.map f = l := by
  intro l
  induction l with
  | nil => intro _; rfl
  | cons c rest ih =>
    intro h
    rw [List.map_cons, h c (List.mem_cons_self c rest),
      ih (fun x hx => h x (List.mem_cons_of_mem c hx))]

/-- Lowering is idempotent: the values of the case table are not keys. -/
theorem pyLower_pyLower (c : Char) : pyLower (pyLower c) = pyLower c := by
  unfold pyLower
  cases h : clookup c lowPairs with
  | none => rw [h]
  | some v =>
    have hv : clookup v lowPairs = none := by
      have hall : ∀ p ∈ lowPairs, clookup p.2 lowPairs = none := by decide
      exact hall (c, v) (clookup_mem h)
    rw [hv]

/-- Accent folding is idempotent: plain vowels are not accented keys. -/
theorem accFold_accFold (c : Char) : accFold (accFold c) = accFold c := by
  unfold accFold
  cases h : clookup c accPairs with
  | none => rw [h]
  | some v =>
    have hv : clookup v accPairs = none := by
      have hall : ∀ p ∈ accPairs, clookup p.2 accPairs = none := by decide
      exact hall (c, v) (clookup_mem h)
    rw [hv]

/-- Accent folding preserves being lower-cased: folding a `pyLower`-fixed
character yields a `pyLower`-fixed character. -/
theorem pyLower_accFold {b : Char} (hb : pyLower b = b) :
    pyLower (accFold b) = accFold b := by
  unfold accFold
  cases h : clookup b accPairs with
  | none => exact hb
  | some v =>
    have hall : ∀ p ∈ accPairs, clookup p.2 lowPairs = none := by decide
    unfold pyLower
    rw [hall (b, v) (clookup_mem h)]

/-- Lowering never creates or destroys whitespace. -/
theorem isPySpace_pyLower (c : Char) : isPySpace (pyLower c) = isPySpace c := by
  unfold pyLower
  cases h : clookup c lowPairs with
  | none => rfl
  | some v =>
    have hall : ∀ p ∈ lowPairs, isPySpace p.1 = false ∧ isPySpace p.2 = false := by decide
    obtain ⟨h1, h2⟩ := hall (c, v) (clookup_mem h)
    rw [h1, h2]

/-- Accent folding never creates or destroys whitespace. -/
theorem isPySpace_accFold (c : Char) : isPySpace (accFold c) = isPySpace c := by
  unfold accFold
  cases h : clookup c accPairs with
  | none => rfl
  | some v =>
    have hall : ∀ p ∈ accPairs, isPySpace p.1 = false ∧ isPySpace p.2 = false := by decide
    obtain ⟨h1, h2⟩ := hall (c, v) (clookup_mem h)
    rw [h1, h2]

/-- Every character emitted by the apostrophe-collapse scanner comes from its
input. -/
theorem mem_collapseAposAux : ∀ {l : List Char} {b : Bool} {c : Char},
    c ∈ collapseAposAux b l → c ∈ l := by
  intro l
  induction l with
  | nil => intro b c h; simp [collapseAposAux] at h
  | cons a rest ih =>
    intro b c h
    rw [collapseAposAux] at h
    by_cases h1 : (b && isPySpace a) = true
    · rw [if_pos h1] at h
      exact List.mem_cons_of_mem a (ih h)
    · rw [if_neg h1] at h
      by_cases h2 : a = apos
      · rw [if_pos h2] at h
        rcases List.mem_cons.mp h with h3 | h3
        · exact h3 ▸ List.mem_cons_self a rest
        · exact List.mem_cons_of_mem a (ih h3)
      · rw [if_neg h2] at h
        rcases List.mem_cons.mp h with h3 | h3
        · exact h3 ▸ List.mem_cons_self a rest
        · exact List.mem_cons_of_mem a (ih h3)

/-- Running the apostrophe-collapse scanner a second time (from the same
state) changes nothing. -/
theorem collapseAposAux_idem : ∀ (l : List Char) (b : Bool),
    collapseAposAux b (collapseAposAux b l) = collapseAposAux b l := by
  intro l
  induction l with
  | nil => intro b; rfl
  | cons c rest ih =>
    intro b
    rw [collapseAposAux]
    by_cases h1 : (b && isPySpace c) = true
    · rw [if_pos h1]
      have hb : b = true := by
        cases b
        · simp at h1
        · rfl
      subst hb
      exact ih true
    · rw [if_neg h1]
      by_cases h2 : c = apos
      · rw [if_pos h2]
        conv_lhs => rw [collapseAposAux]
        have hsp : isPySpace c = false := by
          rw [h2]; decide
        rw [if_neg (by rw [hsp]; simp), if_pos h2]
        rw [ih true]
      · rw [if_neg h2]
        conv_lhs => rw [collapseAposAux]
        rw [if_neg (by intro hc; exact h1 hc), if_neg h2]
        rw [ih false]

/-- From the initial state, the scanner preserves the first character. -/
theorem collapseAposAux_head? (l : List Char) :
    (collapseAposAux false l).head? = l.head? := by
  cases l with
  | nil => rfl
  | cons c rest =>
    rw [collapseAposAux]
    rw [if_neg (by simp)]
    by_cases h2 : c = apos
    · rw [if_pos h2]; rfl
    · rw [if_neg h2]; rfl

/-- Dropping the head of a cons keeps the last element of a longer list. -/
theorem getLast?_cons_of_ne_nil {a : Char} {l : List Char} (h : l ≠ []) :
    (a :: l).getLast? = l.getLast? := by
  cases l with
  | nil => exact absurd rfl h
  | cons b bs => exact List.getLast?_cons_cons

/-- The scanner preserves a non-whitespace last character, from any state. -/
theorem collapseAposAux_getLast? : ∀ (l : List Char) {c : Char}, isPySpace c = false →
    l.getLast? = some c → ∀ b, (collapseAposAux b l).getLast? = some c := by
  intro l
  induction l with
  | nil => intro c _ h b; simp at h
  | cons a rest ih =>
    intro c hc hlast b
    cases rest with
    | nil =>
      simp at hlast
      subst hlast
      rw [collapseAposAux, if_neg (by rw [hc]; simp)]
      by_cases h2 : a = apos
      · rw [if_pos h2]; rfl
      · rw [if_neg h2]; rfl
    | cons a2 rest2 =>
      have hlast2 : (a2 :: rest2).getLast? = some c := by
        rw [← List.getLast?_cons_cons (a := a)]
        exact hlast
      rw [collapseAposAux]
      by_cases h1 : (b && isPySpace a) = true
      · rw [if_pos h1]
        exact ih hc hlast2 true
      · rw [if_neg h1]
        by_cases h2 : a = apos
        · rw [if_pos h2]
          have hx := ih hc hlast2 true
          rw [getLast?_cons_of_ne_nil (by intro hnil; rw [hnil] at hx; simp at hx)]
          exact hx
        · rw [if_neg h2]
          have hx2 := ih hc hlast2 false
          rw [getLast?_cons_of_ne_nil (by intro hnil; rw [hnil] at hx2; simp at hx2)]
          exact hx2

/-- The head of a `dropWhile` result never satisfies the dropped predicate. -/
theorem head?_dropWhile {p : Char → Bool} : ∀ {l : List Char} {a : Char},
    (l.dropWhile p).head? = some a → p a = false := by
  intro l
  induction l with
  | nil => intro a h; simp [List.dropWhile] at h
  | cons c rest ih =>
    intro a h
    rw [List.dropWhile_cons] at h
    by_cases hc : p c = true
    · rw [if_pos hc] at h
      exact ih h
    · rw [if_neg hc] at h
      simp at h
      rw [← h]
      exact Bool.of_not_eq_true hc

/-- A list whose head does not satisfy `p` is unchanged by `dropWhile p`. -/
theorem dropWhile_eq_self_of_head {p : Char → Bool} {l : List Char}
    (h : ∀ a, l.head? = some a → p a = false) : l.dropWhile p = l := by
  cases l with
  | nil => rfl
  | cons c rest =>
    rw [List.dropWhile_cons, if_neg]
    rw [h c rfl]
    simp

/-- A non-empty `dropWhile` result has the same last element as the input. -/
theorem getLast?_dropWhile_of_some {p : Char → Bool} {l : List Char} {a : Char}
    (h : (l.dropWhile p).getLast? = some a) : l.getLast? = some a := by
  obtain ⟨t, ht⟩ := List.dropWhile_suffix (l := l) p
  rw [← ht]
  rw [List.getLast?_append_of_ne_nil]
  · exact h
  · intro hnil
    rw [hnil] at h
    simp at h

/-- A stripped string does not start with whitespace. -/
theorem pyStrip_head_nonspace {x : List Char} {a : Char}
    (h : (pyStrip x).head? = some a) : isPySpace a = false := by
  unfold pyStrip at h
  rw [List.head?_reverse] at h
  have h2 := getLast?_dropWhile_of_some h
  rw [List.getLast?_reverse] at h2
  exact head?_dropWhile h2

/-- A stripped string does not end with whitespace. -/
theorem pyStrip_getLast_nonspace {x : List Char} {a : Char}
    (h : (pyStrip x).getLast? = some a) : isPySpace a = false := by
  unfold pyStrip at h
  rw [List.getLast?_reverse] at h
  exact head?_dropWhile h

/-- The accent-folded lowering of a stripped string does not start with
whitespace. -/
theorem normNoApos_head_nonspace {x : List Char} {a : Char}
    (h : (normNoApos x).head? = some a) : isPySpace a = false := by
  unfold normNoApos removeAccentsL at h
  rw [List.head?_map, List.head?_map, List.head?_map] at h
  cases h0 : (pyStrip x).head? with
  | none => rw [h0] at h; simp at h
  | some a0 =>
    rw [h0] at h
    have ha : a = accFold (pyLower (pyLower a0)) := by
      exact (Option.some.inj h).symm
    rw [ha, isPySpace_accFold, isPySpace_pyLower, isPySpace_pyLower]
    exact pyStrip_head_nonspace h0

/-- The accent-folded lowering of a stripped string does not end with
whitespace. -/
theorem normNoApos_getLast_nonspace {x : List Char} {a : Char}
    (h : (normNoApos x).getLast? = some a) : isPySpace a = false := by
  unfold normNoApos removeAccentsL at h
  rw [List.getLast?_map, List.getLast?_map, List.getLast?_map] at h
  cases h0 : (pyStrip x).getLast? with
  | none => rw [h0] at h; simp at h
  | some a0 =>
    rw [h0] at h
    have ha : a = accFold (pyLower (pyLower a0)) := by
      exact (Option.some.inj h).symm
    rw [ha, isPySpace_accFold, isPySpace_pyLower, isPySpace_pyLower]
    exact pyStrip_getLast_nonspace h0

/-- Every character of an accent-folded lowered string is fixed by both
lowering and accent folding. -/
theorem normNoApos_mem_fix {x : List Char} {c : Char} (h : c ∈ normNoApos x) :
    pyLower c = c ∧ accFold c = c := by
  unfold normNoApos removeAccentsL at h
  obtain ⟨b, hb, rfl⟩ := List.mem_map.mp h
  obtain ⟨b1, hb1, rfl⟩ := List.mem_map.mp hb
  have hlow : pyLower (pyLower b1) = pyLower b1 := pyLower_pyLower b1
  constructor
  · exact pyLower_accFold hlow
  · exact accFold_accFold (pyLower b1)

/-- A normalised answer does not start with whitespace. -/
theorem pyNorm_head_nonspace {x : List Char} {a : Char}
    (h : (pyNorm x).head? = some a) : isPySpace a = false := by
  unfold pyNorm collapseApos at h
  rw [collapseAposAux_head?] at h
  exact normNoApos_head_nonspace (x := x) h

/-- A normalised answer does not end with whitespace. -/
theorem pyNorm_getLast_nonspace {x : List Char} {a : Char}
    (h : (pyNorm x).getLast? = some a) : isPySpace a = false := by
  unfold pyNorm collapseApos at h
  cases hm : (removeAccentsL ((pyStrip x).map pyLower)).getLast? with
  | none =>
    rw [List.getLast?_eq_none_iff] at hm
    rw [hm] at h
    simp [collapseAposAux] at h
  | some a0 =>
    have hsp : isPySpace a0 = false := normNoApos_getLast_nonspace (x := x) hm
    rw [collapseAposAux_getLast? _ hsp hm false] at h
    exact (Option.some.inj h) ▸ hsp

/-- Every character of a normalised answer is fixed by lowering and by accent
folding. -/
theorem pyNorm_mem_fix {x : List Char} {c : Char} (h : c ∈ pyNorm x) :
    pyLower c = c ∧ accFold c = c := by
  unfold pyNorm collapseApos at h
  exact normNoApos_mem_fix (x := x) (mem_collapseAposAux h)

/-- Claim C9: the normaliser `_norm` of `check_answer` — strip, lower-case,
fold the ten accented Italian vowels, collapse an apostrophe followed by
whitespace — is idempotent: normalising twice equals normalising once. -/
theorem c9_normalizer_idempotent (x : List Char) :
    pyNorm (pyNorm x) = pyNorm x := by
  have hhead : ∀ a, (pyNorm x).head? = some a → isPySpace a = false :=
    fun a ha => pyNorm_head_nonspace ha
  have h1 : (pyNorm x).dropWhile isPySpace = pyNorm x :=
    dropWhile_eq_self_of_head hhead
  have h2 : (pyNorm x).reverse.dropWhile isPySpace = (pyNorm x).reverse := by
    refine dropWhile_eq_self_of_head (fun a ha => ?_)
    rw [List.head?_reverse] at ha
    exact pyNorm_getLast_nonspace ha
  have hstrip : pyStrip (pyNorm x) = pyNorm x := by
    unfold pyStrip
    rw [h1, h2, List.reverse_reverse]
  have hlow : (pyNorm x).map pyLower = pyNorm x :=
    map_fix (fun c hc => (pyNorm_mem_fix hc).1)
  have hacc : (pyNorm x).map accFold = pyNorm x :=
    map_fix (fun c hc => (pyNorm_mem_fix hc).2)
  conv_lhs => rw [pyNorm, removeAccentsL]
  rw [hstrip, hlow, hlow, hacc]
  conv_lhs => rw [pyNorm, collapseApos]
  rw [collapseApos]
  exact collapseAposAux_idem _ false
